import Mathlib

/-!
Shallow embedding of the geo-analysis core of `src/public/js/map/drawing.js`
(function `performAnalysis`, lines 229-395, together with the shared
coordinate-normalization logic also used by `loadPopulationData`,
lines 176-181).

JavaScript numbers are embedded as exact rationals (`ℚ`).  Missing / falsy
record fields are embedded as `Option ℚ` (with JS truthiness `truthy`:
`0` is falsy just like an absent field).  The external collaborators that
the analyzed file imports or receives from Leaflet are embedded as
parameters or, where their behaviour is fixed and documented, as concrete
definitions:

* `convertUTMToWGS84` (imported from `config.js`, a file that is not part
  of the analyzed sources) is an abstract parameter
  `conv : ℚ → ℚ → Option (ℚ × ℚ)`; a thrown conversion error is `none`.
* Leaflet's `LatLng.distanceTo` (a great-circle distance) is an abstract
  parameter `dist : (ℚ × ℚ) → (ℚ × ℚ) → ℚ`; points are `(lat, lng)`.
* Leaflet's `LatLngBounds` operations (`intersects`, `contains`,
  `L.polygon(...).getBounds()`) have fixed axis-aligned min/max box
  semantics and are embedded concretely below.
* The drawn shape is embedded by the data the analyzed code reads off it:
  a circle carries `getLatLng()`, `getRadius()` and `getBounds()`; a
  rectangle or drawn polygon only its `getBounds()` box.
-/

/-- An axis-aligned latitude/longitude box (Leaflet `LatLngBounds`). -/
structure Bounds where
  minLat : ℚ
  maxLat : ℚ
  minLng : ℚ
  maxLng : ℚ
deriving DecidableEq

/-- Leaflet `LatLngBounds.intersects`: the two boxes overlap (touching
edges count as overlapping). -/
def Bounds.intersects (self other : Bounds) : Bool :=
  (decide (other.maxLat ≥ self.minLat) && decide (other.minLat ≤ self.maxLat))
    && (decide (other.maxLng ≥ self.minLng) && decide (other.minLng ≤ self.maxLng))

/-- Leaflet `LatLngBounds.contains` for a single `(lat, lng)` point:
inclusive box membership. -/
def Bounds.containsPoint (self : Bounds) (p : ℚ × ℚ) : Bool :=
  (decide (self.minLat ≤ p.1) && decide (p.1 ≤ self.maxLat))
    && (decide (self.minLng ≤ p.2) && decide (p.2 ≤ self.maxLng))

/-- Leaflet `L.polygon(coords).getBounds()`: the bounding box of the
vertex list (vertices are `(lat, lng)`).  Only ever used on lists of
length at least 3 in the analyzed code; the empty case is arbitrary. -/
def boundsOfRing : List (ℚ × ℚ) → Bounds
  | [] => ⟨0, 0, 0, 0⟩
  | p :: ps =>
    ps.foldl
      (fun b q => ⟨min b.minLat q.1, max b.maxLat q.1, min b.minLng q.2, max b.maxLng q.2⟩)
      ⟨p.1, p.1, p.2, p.2⟩

/-- The drawn query shape, as read by `performAnalysis` (lines 235-246):
a circle carries center, radius (meters) and its Leaflet bounding box; a
rectangle or drawn polygon is reduced to its bounding box. -/
inductive DrawnShape where
  | circle (center : ℚ × ℚ) (radius : ℚ) (bounds : Bounds)
  | region (bounds : Bounds)
deriving DecidableEq

/-- A population-area record.  `geom` is `some rings` when both
`area.geom` and `area.geom.coordinates` are present (a MultiPolygon-style
list of rings of raw `[x, y]` pairs), `none` when either is missing.
`poptot` is the raw population field (`none` = absent). -/
structure PopArea where
  geom : Option (List (List (ℚ × ℚ)))
  poptot : Option ℚ
deriving DecidableEq

/-- A shelter (bunker) record.  `geom` is the raw coordinate pair
`[coordinates[0], coordinates[1]]` when present; `plasser` is the raw
capacity field. -/
structure Bunker where
  geom : Option (ℚ × ℚ)
  plasser : Option ℚ
deriving DecidableEq

/-- JS truthiness of a possibly-missing numeric field: absent, and the
number `0`, are falsy; every other rational is truthy. -/
def truthy : Option ℚ → Bool
  | none => false
  | some v => decide (v ≠ 0)

/-- The result record assembled by `performAnalysis` (the analysis
counters of lines 249-252 and 334-335 plus the totals and the coverage
percentage handed to `updateAnalysisResults`). -/
structure AnalysisResult where
  totalPopulation : ℚ
  totalShelterCapacity : ℚ
  coveragePercentage : ℚ
  areasProcessed : ℕ
  areasIntersected : ℕ
  areasWithErrors : ℕ
  bunkersInside : ℕ
deriving DecidableEq

/-- Coordinate normalization shared by `performAnalysis` (lines 275-288)
and `loadPopulationData` (lines 176-181): a raw `[x, y]` pair with
`x > 180` or `y > 90` is treated as projected (UTM) and sent through
`convertUTMToWGS84`, whose `[lng, lat]` result is swapped to `(lat, lng)`;
otherwise the pair is taken as already-geographic `[lng, lat]` and
swapped to `(lat, lng)` unchanged.  A thrown conversion error (`none`)
makes the whole coordinate `none`, to be dropped by the caller. -/
def normalizeCoord (conv : ℚ → ℚ → Option (ℚ × ℚ)) (c : ℚ × ℚ) : Option (ℚ × ℚ) :=
  if c.1 > 180 ∨ c.2 > 90 then
    (conv c.1 c.2).map (fun wgs84 => (wgs84.2, wgs84.1))
  else
    some (c.2, c.1)

/-- Accumulator of the population pass (lines 249-252). -/
structure PopAcc where
  totalPopulation : ℚ
  areasIntersected : ℕ
  areasProcessed : ℕ
  areasWithErrors : ℕ
deriving DecidableEq

def PopAcc.zero : PopAcc := ⟨0, 0, 0, 0⟩

def PopAcc.add (a b : PopAcc) : PopAcc :=
  ⟨a.totalPopulation + b.totalPopulation, a.areasIntersected + b.areasIntersected,
    a.areasProcessed + b.areasProcessed, a.areasWithErrors + b.areasWithErrors⟩

/-- One iteration of the population `forEach` (lines 259-327).
`areasProcessed` is incremented unconditionally at the top of the body;
a record with missing geometry or falsy `poptot` is then skipped; the
first ring (`coordinates[0] || coordinates`) is normalized coordinate by
coordinate, dropping failures; fewer than 3 surviving vertices is a bare
`return` (no error counter); otherwise the ring is classified against the
shape and, if intersecting, counted and its population added.  Nothing
in the `try` body can throw in this value domain (the only throwing
callee, `convertUTMToWGS84`, is wrapped in the inner handler that yields
`null`), so the `catch` that increments `areasWithErrors` is never
entered. -/
def popStep (dist : ℚ × ℚ → ℚ × ℚ → ℚ) (conv : ℚ → ℚ → Option (ℚ × ℚ))
    (shape : DrawnShape) (acc : PopAcc) (area : PopArea) : PopAcc :=
  let acc := { acc with areasProcessed := acc.areasProcessed + 1 }
  match area.geom with
  | none => acc
  | some rings =>
    if truthy area.poptot then
      let coords := rings.headD []
      let convertedCoords := coords.filterMap (normalizeCoord conv)
      if convertedCoords.length < 3 then
        acc
      else
        let polygonBounds := boundsOfRing convertedCoords
        let isIntersecting : Bool :=
          match shape with
          | .circle center radius shapeBounds =>
            polygonBounds.intersects shapeBounds
              && convertedCoords.any (fun c => decide (dist c center ≤ radius))
          | .region shapeBounds => polygonBounds.intersects shapeBounds
        if isIntersecting then
          { acc with
            areasIntersected := acc.areasIntersected + 1,
            totalPopulation := acc.totalPopulation + area.poptot.getD 0 }
        else
          acc
    else
      acc

/-- Accumulator of the shelter pass (lines 334-335). -/
structure BunkerAcc where
  totalShelterCapacity : ℚ
  bunkersInside : ℕ
deriving DecidableEq

def BunkerAcc.zero : BunkerAcc := ⟨0, 0⟩

def BunkerAcc.add (a b : BunkerAcc) : BunkerAcc :=
  ⟨a.totalShelterCapacity + b.totalShelterCapacity, a.bunkersInside + b.bunkersInside⟩

/-- One iteration of the bunker `forEach` (lines 343-380).  A record with
missing geometry or falsy `plasser` is skipped; the raw pair is always
sent through `convertUTMToWGS84` (no magnitude heuristic), a thrown
conversion error being caught by the surrounding `catch` (the bunker is
silently skipped); the `[lng, lat]` result is read as `lat`/`lng` and
tested against the shape: distance for a circle, bounding-box containment
for a rectangle or polygon. -/
def bunkerStep (dist : ℚ × ℚ → ℚ × ℚ → ℚ) (conv : ℚ → ℚ → Option (ℚ × ℚ))
    (shape : DrawnShape) (acc : BunkerAcc) (bunker : Bunker) : BunkerAcc :=
  match bunker.geom with
  | none => acc
  | some (utmEasting, utmNorthing) =>
    if truthy bunker.plasser then
      match conv utmEasting utmNorthing with
      | none => acc
      | some wgs84Coords =>
        let bunkerLatLng : ℚ × ℚ := (wgs84Coords.2, wgs84Coords.1)
        let isInside : Bool :=
          match shape with
          | .circle center radius _ => decide (dist bunkerLatLng center ≤ radius)
          | .region shapeBounds => shapeBounds.containsPoint bunkerLatLng
        if isInside then
          { totalShelterCapacity := acc.totalShelterCapacity + bunker.plasser.getD 0,
            bunkersInside := acc.bunkersInside + 1 }
        else
          acc
    else
      acc

/-- The coverage calculation of lines 387-389: guarded division,
returning `0` whenever `totalPopulation > 0` fails. -/
def coveragePercentage (totalShelterCapacity totalPopulation : ℚ) : ℚ :=
  if totalPopulation > 0 then totalShelterCapacity / totalPopulation * 100 else 0

/-- `performAnalysis` (lines 229-395), abstracted over the distance
function and the UTM conversion: one pass over the population records,
one pass over the bunker records, then the coverage percentage.  An
absent dataset behaves exactly like the empty list (the guards at lines
254 and 338 skip the pass, leaving the zero-initialized sums). -/
def performAnalysis (dist : ℚ × ℚ → ℚ × ℚ → ℚ) (conv : ℚ → ℚ → Option (ℚ × ℚ))
    (shape : DrawnShape) (populationData : List PopArea) (bunkerData : List Bunker) :
    AnalysisResult :=
  let p := populationData.foldl (popStep dist conv shape) PopAcc.zero
  let b := bunkerData.foldl (bunkerStep dist conv shape) BunkerAcc.zero
  { totalPopulation := p.totalPopulation
    totalShelterCapacity := b.totalShelterCapacity
    coveragePercentage := coveragePercentage b.totalShelterCapacity p.totalPopulation
    areasProcessed := p.areasProcessed
    areasIntersected := p.areasIntersected
    areasWithErrors := p.areasWithErrors
    bunkersInside := b.bunkersInside }

/-! ### Accumulator algebra

Each pass step only ever adds a record-determined delta to the running
accumulator, so the fold decomposes into a sum of per-record
contributions.  These lemmas carry every aggregation claim. -/

theorem popAcc_add_zero (a : PopAcc) : a.add PopAcc.zero = a := by
  cases a; simp [PopAcc.add, PopAcc.zero]

theorem popAcc_zero_add (a : PopAcc) : PopAcc.zero.add a = a := by
  cases a; simp [PopAcc.add, PopAcc.zero]

theorem popAcc_add_assoc (a b c : PopAcc) : (a.add b).add c = a.add (b.add c) := by
  cases a; cases b; cases c; simp [PopAcc.add, add_assoc]

theorem popAcc_add_comm (a b : PopAcc) : a.add b = b.add a := by
  cases a; cases b; simp [PopAcc.add, add_comm]

theorem bunkerAcc_add_zero (a : BunkerAcc) : a.add BunkerAcc.zero = a := by
  cases a; simp [BunkerAcc.add, BunkerAcc.zero]

theorem bunkerAcc_zero_add (a : BunkerAcc) : BunkerAcc.zero.add a = a := by
  cases a; simp [BunkerAcc.add, BunkerAcc.zero]

theorem bunkerAcc_add_assoc (a b c : BunkerAcc) : (a.add b).add c = a.add (b.add c) := by
  cases a; cases b; cases c; simp [BunkerAcc.add, add_assoc]

theorem bunkerAcc_add_comm (a b : BunkerAcc) : a.add b = b.add a := by
  cases a; cases b; simp [BunkerAcc.add, add_comm]

/-- The contribution a single population record makes to the pass. -/
def popContrib (dist : ℚ × ℚ → ℚ × ℚ → ℚ) (conv : ℚ → ℚ → Option (ℚ × ℚ))
    (shape : DrawnShape) (area : PopArea) : PopAcc :=
  popStep dist conv shape PopAcc.zero area

/-- The contribution a single bunker record makes to the pass. -/
def bunkerContrib (dist : ℚ × ℚ → ℚ × ℚ → ℚ) (conv : ℚ → ℚ → Option (ℚ × ℚ))
    (shape : DrawnShape) (bunker : Bunker) : BunkerAcc :=
  bunkerStep dist conv shape BunkerAcc.zero bunker

theorem popStep_eq_add (dist : ℚ × ℚ → ℚ × ℚ → ℚ) (conv : ℚ → ℚ → Option (ℚ × ℚ))
    (shape : DrawnShape) (acc : PopAcc) (area : PopArea) :
    popStep dist conv shape acc area = acc.add (popContrib dist conv shape area) := by
  cases acc
  obtain ⟨geom, poptot⟩ := area
  cases geom with
  | none => simp [popStep, popContrib, PopAcc.add, PopAcc.zero]
  | some rings =>
    simp only [popStep, popContrib]
    split
    · split
      · simp [PopAcc.add, PopAcc.zero]
      · split
        · simp [PopAcc.add, PopAcc.zero]
        · simp [PopAcc.add, PopAcc.zero]
    · simp [PopAcc.add, PopAcc.zero]

theorem bunkerStep_eq_add (dist : ℚ × ℚ → ℚ × ℚ → ℚ) (conv : ℚ → ℚ → Option (ℚ × ℚ))
    (shape : DrawnShape) (acc : BunkerAcc) (bunker : Bunker) :
    bunkerStep dist conv shape acc bunker = acc.add (bunkerContrib dist conv shape bunker) := by
  cases acc
  obtain ⟨geom, plasser⟩ := bunker
  cases geom with
  | none => simp [bunkerStep, bunkerContrib, BunkerAcc.add, BunkerAcc.zero]
  | some en =>
    obtain ⟨e, n⟩ := en
    simp only [bunkerStep, bunkerContrib]
    split
    · split
      · simp [BunkerAcc.add, BunkerAcc.zero]
      · split
        · simp [BunkerAcc.add, BunkerAcc.zero]
        · simp [BunkerAcc.add, BunkerAcc.zero]
    · simp [BunkerAcc.add, BunkerAcc.zero]

theorem foldl_popStep_eq_add (dist : ℚ × ℚ → ℚ × ℚ → ℚ) (conv : ℚ → ℚ → Option (ℚ × ℚ))
    (shape : DrawnShape) :
    ∀ (l : List PopArea) (acc : PopAcc),
      l.foldl (popStep dist conv shape) acc
        = acc.add (l.foldl (popStep dist conv shape) PopAcc.zero) := by
  intro l
  induction l with
  | nil => intro acc; simp [List.foldl, popAcc_add_zero]
  | cons a l ih =>
    intro acc
    simp only [List.foldl]
    rw [ih (popStep dist conv shape acc a), ih (popStep dist conv shape PopAcc.zero a),
      popStep_eq_add dist conv shape acc a, popStep_eq_add dist conv shape PopAcc.zero a,
      popAcc_zero_add, popAcc_add_assoc]

theorem foldl_bunkerStep_eq_add (dist : ℚ × ℚ → ℚ × ℚ → ℚ) (conv : ℚ → ℚ → Option (ℚ × ℚ))
    (shape : DrawnShape) :
    ∀ (l : List Bunker) (acc : BunkerAcc),
      l.foldl (bunkerStep dist conv shape) acc
        = acc.add (l.foldl (bunkerStep dist conv shape) BunkerAcc.zero) := by
  intro l
  induction l with
  | nil => intro acc; simp [List.foldl, bunkerAcc_add_zero]
  | cons b l ih =>
    intro acc
    simp only [List.foldl]
    rw [ih (bunkerStep dist conv shape acc b), ih (bunkerStep dist conv shape BunkerAcc.zero b),
      bunkerStep_eq_add dist conv shape acc b, bunkerStep_eq_add dist conv shape BunkerAcc.zero b,
      bunkerAcc_zero_add, bunkerAcc_add_assoc]

theorem foldl_popStep_insert (dist : ℚ × ℚ → ℚ × ℚ → ℚ) (conv : ℚ → ℚ → Option (ℚ × ℚ))
    (shape : DrawnShape) (pre post : List PopArea) (x : PopArea) :
    (pre ++ x :: post).foldl (popStep dist conv shape) PopAcc.zero
      = ((pre ++ post).foldl (popStep dist conv shape) PopAcc.zero).add
          (popContrib dist conv shape x) := by
  rw [List.foldl_append, List.foldl_append, List.foldl_cons,
    foldl_popStep_eq_add dist conv shape post
      (popStep dist conv shape (pre.foldl (popStep dist conv shape) PopAcc.zero) x),
    foldl_popStep_eq_add dist conv shape post
      (pre.foldl (popStep dist conv shape) PopAcc.zero),
    popStep_eq_add, popAcc_add_assoc, popAcc_add_assoc,
    popAcc_add_comm (popContrib dist conv shape x)]

theorem foldl_bunkerStep_insert (dist : ℚ × ℚ → ℚ × ℚ → ℚ) (conv : ℚ → ℚ → Option (ℚ × ℚ))
    (shape : DrawnShape) (pre post : List Bunker) (x : Bunker) :
    (pre ++ x :: post).foldl (bunkerStep dist conv shape) BunkerAcc.zero
      = ((pre ++ post).foldl (bunkerStep dist conv shape) BunkerAcc.zero).add
          (bunkerContrib dist conv shape x) := by
  rw [List.foldl_append, List.foldl_append, List.foldl_cons,
    foldl_bunkerStep_eq_add dist conv shape post
      (bunkerStep dist conv shape (pre.foldl (bunkerStep dist conv shape) BunkerAcc.zero) x),
    foldl_bunkerStep_eq_add dist conv shape post
      (pre.foldl (bunkerStep dist conv shape) BunkerAcc.zero),
    bunkerStep_eq_add, bunkerAcc_add_assoc, bunkerAcc_add_assoc,
    bunkerAcc_add_comm (bunkerContrib dist conv shape x)]

/-- The contribution of a population record that is skipped after the
unconditional counter bump at the top of the loop body. -/
def processedOnly : PopAcc := ⟨0, 0, 1, 0⟩

theorem popContrib_geom_none (dist : ℚ × ℚ → ℚ × ℚ → ℚ) (conv : ℚ → ℚ → Option (ℚ × ℚ))
    (shape : DrawnShape) (pt : Option ℚ) :
    popContrib dist conv shape ⟨none, pt⟩ = processedOnly := by
  simp [popContrib, popStep, PopAcc.zero, processedOnly]

theorem popContrib_not_truthy (dist : ℚ × ℚ → ℚ × ℚ → ℚ) (conv : ℚ → ℚ → Option (ℚ × ℚ))
    (shape : DrawnShape) (g : Option (List (List (ℚ × ℚ)))) (pt : Option ℚ)
    (h : truthy pt = false) :
    popContrib dist conv shape ⟨g, pt⟩ = processedOnly := by
  cases g with
  | none => exact popContrib_geom_none dist conv shape pt
  | some rings => simp [popContrib, popStep, h, PopAcc.zero, processedOnly]

theorem popContrib_short (dist : ℚ × ℚ → ℚ × ℚ → ℚ) (conv : ℚ → ℚ → Option (ℚ × ℚ))
    (shape : DrawnShape) (rings : List (List (ℚ × ℚ))) (pt : Option ℚ)
    (h : ((rings.headD []).filterMap (normalizeCoord conv)).length < 3) :
    popContrib dist conv shape ⟨some rings, pt⟩ = processedOnly := by
  cases ht : truthy pt with
  | false => exact popContrib_not_truthy dist conv shape (some rings) pt ht
  | true =>
    cases rings with
    | nil => simp [popContrib, popStep, ht, PopAcc.zero, processedOnly]
    | cons r rs =>
      simp only [List.headD] at h
      simp [popContrib, popStep, ht, h, PopAcc.zero, processedOnly]

theorem bunkerContrib_geom_none (dist : ℚ × ℚ → ℚ × ℚ → ℚ) (conv : ℚ → ℚ → Option (ℚ × ℚ))
    (shape : DrawnShape) (cap : Option ℚ) :
    bunkerContrib dist conv shape ⟨none, cap⟩ = BunkerAcc.zero := by
  simp [bunkerContrib, bunkerStep]

theorem bunkerContrib_not_truthy (dist : ℚ × ℚ → ℚ × ℚ → ℚ) (conv : ℚ → ℚ → Option (ℚ × ℚ))
    (shape : DrawnShape) (g : Option (ℚ × ℚ)) (cap : Option ℚ)
    (h : truthy cap = false) :
    bunkerContrib dist conv shape ⟨g, cap⟩ = BunkerAcc.zero := by
  cases g with
  | none => exact bunkerContrib_geom_none dist conv shape cap
  | some en => simp [bunkerContrib, bunkerStep, h]

theorem bunkerContrib_conv_none (dist : ℚ × ℚ → ℚ × ℚ → ℚ) (conv : ℚ → ℚ → Option (ℚ × ℚ))
    (shape : DrawnShape) (e n : ℚ) (cap : Option ℚ)
    (h : conv e n = none) :
    bunkerContrib dist conv shape ⟨some (e, n), cap⟩ = BunkerAcc.zero := by
  cases ht : truthy cap with
  | false => exact bunkerContrib_not_truthy dist conv shape (some (e, n)) cap ht
  | true => simp [bunkerContrib, bunkerStep, ht, h]

/-- Bump only the `areasProcessed` counter of a result. -/
def bumpProcessed (r : AnalysisResult) : AnalysisResult :=
  { r with areasProcessed := r.areasProcessed + 1 }

/-- Inserting a population record that only bumps `areasProcessed` leaves
every other field of the analysis result unchanged. -/
theorem performAnalysis_insert_processedOnly (dist : ℚ × ℚ → ℚ × ℚ → ℚ)
    (conv : ℚ → ℚ → Option (ℚ × ℚ)) (shape : DrawnShape)
    (pre post : List PopArea) (x : PopArea) (bs : List Bunker)
    (h : popContrib dist conv shape x = processedOnly) :
    performAnalysis dist conv shape (pre ++ x :: post) bs
      = bumpProcessed (performAnalysis dist conv shape (pre ++ post) bs) := by
  unfold performAnalysis bumpProcessed
  rw [foldl_popStep_insert, h]
  simp [PopAcc.add, processedOnly]

/-- Inserting a bunker record with zero contribution leaves the analysis
result unchanged. -/
theorem performAnalysis_insert_bunkerZero (dist : ℚ × ℚ → ℚ × ℚ → ℚ)
    (conv : ℚ → ℚ → Option (ℚ × ℚ)) (shape : DrawnShape)
    (ps : List PopArea) (bpre bpost : List Bunker) (y : Bunker)
    (h : bunkerContrib dist conv shape y = BunkerAcc.zero) :
    performAnalysis dist conv shape ps (bpre ++ y :: bpost)
      = performAnalysis dist conv shape ps (bpre ++ bpost) := by
  unfold performAnalysis
  rw [foldl_bunkerStep_insert, h, bunkerAcc_add_zero]

/-! ### Concrete instances used to exercise the theorems -/

/-- A degenerate distance function (all distances zero), usable wherever a
concrete distance instance is needed. -/
def distZero : ℚ × ℚ → ℚ × ℚ → ℚ := fun _ _ => 0

/-- A conversion that fails on every input (every call throws). -/
def convNone : ℚ → ℚ → Option (ℚ × ℚ) := fun _ _ => none

/-- A conversion that succeeds on every input, scaling the easting and
northing down to a `[lng, lat]` pair. -/
def convScale : ℚ → ℚ → Option (ℚ × ℚ) := fun e n => some (e / 100000, n / 100000)

/-- A small axis-aligned query region. -/
def shapeBox : DrawnShape := .region ⟨0, 10, 0, 10⟩

/-- A raw triangle ring in geographic range. -/
def triRing : List (ℚ × ℚ) := [(1, 1), (1, 2), (2, 1)]

/-- A raw ring only two of whose coordinates survive a failing UTM
conversion: the two large pairs take the projected path. -/
def shortRing : List (ℚ × ℚ) := [(0, 0), (1, 1), (500, 500), (600, 600)]

/-! ### Claims -/

/-- C2: the coverage calculation returns 0 when the aggregated population
is 0 (no error signalled, for any capacity including a positive one), and
otherwise returns capacity / population × 100, unclamped; and the
coverage field of every analysis result is exactly this calculation
applied to the two aggregated totals. -/
theorem C2_coverage_guarded (cap pop : ℚ) (hpop : 0 ≤ pop) :
    (pop = 0 → coveragePercentage cap pop = 0) ∧
    (pop ≠ 0 → coveragePercentage cap pop = cap / pop * 100) ∧
    ∀ (dist : ℚ × ℚ → ℚ × ℚ → ℚ) (conv : ℚ → ℚ → Option (ℚ × ℚ))
      (shape : DrawnShape) (ps : List PopArea) (bs : List Bunker),
      (performAnalysis dist conv shape ps bs).coveragePercentage
        = coveragePercentage (performAnalysis dist conv shape ps bs).totalShelterCapacity
            (performAnalysis dist conv shape ps bs).totalPopulation := by
  refine ⟨?_, ?_, ?_⟩
  · intro h0
    simp [coveragePercentage, h0]
  · intro hne
    have hpos : 0 < pop := lt_of_le_of_ne hpop (Ne.symm hne)
    simp [coveragePercentage, hpos]
  · intro dist conv shape ps bs
    rfl

/-- C2 witness: population 100 with capacity 300 gives coverage 300
(above 100, unclamped); population 0 with positive capacity 17 gives
coverage 0. -/
theorem C2_coverage_guarded_witness :
    coveragePercentage 300 100 = 300 / 100 * 100 ∧ coveragePercentage 300 100 = 300 ∧
    coveragePercentage 17 0 = 0 :=
  ⟨(C2_coverage_guarded 300 100 (by norm_num)).2.1 (by norm_num),
    by norm_num [coveragePercentage],
    (C2_coverage_guarded 17 0 (by norm_num)).1 rfl⟩

/-- C3: a raw pair with both components at most the geographic bounds
(180 for the first, 90 for the second), including negative, zero and the
exact boundary values, takes the geographic path and is returned as
`(y, x)` unchanged, for every conversion function; the projected path is
taken exactly when `x > 180` or `y > 90` (strict), in which case the
conversion result's `[lng, lat]` is swapped to `(lat, lng)`. -/
theorem C3_normalize_paths (conv : ℚ → ℚ → Option (ℚ × ℚ)) (x y : ℚ) :
    (x ≤ 180 → y ≤ 90 → normalizeCoord conv (x, y) = some (y, x)) ∧
    (x > 180 ∨ y > 90 →
      normalizeCoord conv (x, y) = (conv x y).map (fun wgs84 => (wgs84.2, wgs84.1))) := by
  constructor
  · intro hx hy
    rw [normalizeCoord, if_neg]
    push_neg
    exact ⟨hx, hy⟩
  · intro h
    rw [normalizeCoord, if_pos h]

/-- C3 witness: the exact boundary pair (180, 90) stays geographic even
under a conversion that fails everywhere, returned swapped as (90, 180);
negative and zero pairs likewise; the pair (200, 0) takes the projected
path (its failing conversion drops the coordinate). -/
theorem C3_normalize_paths_witness :
    normalizeCoord convNone (180, 90) = some (90, 180) ∧
    normalizeCoord convNone (-200, -100) = some (-100, -200) ∧
    normalizeCoord convNone (0, 0) = some (0, 0) ∧
    normalizeCoord convNone (200, 0) = none := by
  refine ⟨(C3_normalize_paths convNone 180 90).1 (by norm_num) (by norm_num),
    (C3_normalize_paths convNone (-200) (-100)).1 (by norm_num) (by norm_num),
    (C3_normalize_paths convNone 0 0).1 (by norm_num) (by norm_num), ?_⟩
  have h := (C3_normalize_paths convNone 200 0).2 (Or.inl (by norm_num))
  simpa [convNone] using h

/-- C5 counterexample: a single population record with geometry present
but `poptot` absent is skipped by the aggregation with no error counted,
yet `areasProcessed` ends at 1, not 0: the counter is incremented at the
top of the loop body, before the presence check, refuting the claim that
it is not incremented for such a record. -/
theorem C5_counterexample :
    performAnalysis distZero convNone shapeBox [⟨some [triRing], none⟩] []
      = ⟨0, 0, 0, 1, 0, 0, 0⟩ ∧
    ¬(performAnalysis distZero convNone shapeBox [⟨some [triRing], none⟩] []).areasProcessed
        = 0 := by
  constructor
  · norm_num [performAnalysis, popStep, truthy, PopAcc.zero, BunkerAcc.zero, coveragePercentage]
  · norm_num [performAnalysis, popStep, truthy, PopAcc.zero, BunkerAcc.zero]

/-- C5 (amended): a population record with absent `poptot` is skipped by
the aggregation pass (it contributes nothing to the population total, the
intersection count or the error counter), but `areasProcessed` IS
incremented for it, since that counter is bumped unconditionally for
every record before the presence check. -/
theorem C5_missing_poptot (dist : ℚ × ℚ → ℚ × ℚ → ℚ) (conv : ℚ → ℚ → Option (ℚ × ℚ))
    (shape : DrawnShape) (pre post : List PopArea) (g : Option (List (List (ℚ × ℚ))))
    (bs : List Bunker) :
    performAnalysis dist conv shape (pre ++ ⟨g, none⟩ :: post) bs
      = bumpProcessed (performAnalysis dist conv shape (pre ++ post) bs) :=
  performAnalysis_insert_processedOnly dist conv shape pre post _ bs
    (popContrib_not_truthy dist conv shape g none rfl)

/-- C6 counterexample: a population area whose ring retains only 2 valid
vertices after conversion (its two projected pairs fail to convert under
a failing conversion) is excluded from all totals, but `areasWithErrors`
stays 0: the under-3-vertices case is a bare skip, refuting the claimed
`areasWithErrors` increment. -/
theorem C6_counterexample :
    performAnalysis distZero convNone shapeBox [⟨some [shortRing], some 5⟩] []
      = ⟨0, 0, 0, 1, 0, 0, 0⟩ ∧
    ¬(performAnalysis distZero convNone shapeBox [⟨some [shortRing], some 5⟩] []).areasWithErrors
        = 1 := by
  constructor
  · norm_num [performAnalysis, popStep, truthy, PopAcc.zero, BunkerAcc.zero, coveragePercentage,
      shortRing, normalizeCoord, convNone, List.filterMap_cons, List.filterMap_nil]
  · norm_num [performAnalysis, popStep, truthy, PopAcc.zero, BunkerAcc.zero,
      shortRing, normalizeCoord, convNone, List.filterMap_cons, List.filterMap_nil]

/-- C6 (amended): a population record left with fewer than 3 valid
vertices after conversion and dropping of failed coordinates is excluded
from the population total and the intersected count, but no error counter
is incremented: the record is silently skipped, contributing only the
unconditional `areasProcessed` bump. -/
theorem C6_short_ring (dist : ℚ × ℚ → ℚ × ℚ → ℚ) (conv : ℚ → ℚ → Option (ℚ × ℚ))
    (shape : DrawnShape) (pre post : List PopArea) (rings : List (List (ℚ × ℚ)))
    (pt : Option ℚ) (bs : List Bunker)
    (h : ((rings.headD []).filterMap (normalizeCoord conv)).length < 3) :
    performAnalysis dist conv shape (pre ++ ⟨some rings, pt⟩ :: post) bs
      = bumpProcessed (performAnalysis dist conv shape (pre ++ post) bs) :=
  performAnalysis_insert_processedOnly dist conv shape pre post _ bs
    (popContrib_short dist conv shape rings pt h)

/-- C6 (amended) witness: the short ring drops to 2 valid vertices and
its record only bumps `areasProcessed`. -/
theorem C6_short_ring_witness :
    performAnalysis distZero convNone shapeBox [⟨some [shortRing], some 5⟩] []
      = bumpProcessed (performAnalysis distZero convNone shapeBox [] []) :=
  C6_short_ring distZero convNone shapeBox [] [] [shortRing] (some 5) []
    (by norm_num [shortRing, normalizeCoord, convNone, List.filterMap_cons, List.filterMap_nil])

/-- C1: `performAnalysis` is a total function of its inputs in this
embedding (it always yields a complete result record), and per-record
failures are recovered locally: a population record whose ring drops
below 3 valid vertices through conversion failures, and a bunker record
whose conversion fails outright, leave the processing of every other
record and every field of the final result untouched, except for the
unconditional `areasProcessed` bump of the failing population record. -/
theorem C1_local_error_recovery (dist : ℚ × ℚ → ℚ × ℚ → ℚ) (conv : ℚ → ℚ → Option (ℚ × ℚ))
    (shape : DrawnShape) (pre post : List PopArea) (rings : List (List (ℚ × ℚ)))
    (pt : Option ℚ) (bpre bpost : List Bunker) (e n : ℚ) (cap : Option ℚ)
    (hring : ((rings.headD []).filterMap (normalizeCoord conv)).length < 3)
    (hconv : conv e n = none) :
    performAnalysis dist conv shape (pre ++ ⟨some rings, pt⟩ :: post)
        (bpre ++ ⟨some (e, n), cap⟩ :: bpost)
      = bumpProcessed (performAnalysis dist conv shape (pre ++ post) (bpre ++ bpost)) := by
  rw [performAnalysis_insert_bunkerZero dist conv shape _ bpre bpost _
      (bunkerContrib_conv_none dist conv shape e n cap hconv),
    performAnalysis_insert_processedOnly dist conv shape pre post _ _
      (popContrib_short dist conv shape rings pt hring)]

/-- C1 witness: with a conversion that always fails, a malformed-ring
area and an unconvertible bunker alongside nothing else produce the
complete empty result with a single processed-area bump. -/
theorem C1_local_error_recovery_witness :
    performAnalysis distZero convNone shapeBox [⟨some [shortRing], some 7⟩]
        [⟨some (500, 500), some 3⟩]
      = bumpProcessed (performAnalysis distZero convNone shapeBox [] []) :=
  C1_local_error_recovery distZero convNone shapeBox [] [] [shortRing] (some 7) [] [] 500 500
    (some 3)
    (by norm_num [shortRing, normalizeCoord, convNone, List.filterMap_cons, List.filterMap_nil])
    rfl

/-- C10: the presence checks are JS truthiness tests, not missing-field
tests: a population record whose `poptot` is exactly 0, and a bunker
whose `plasser` is exactly 0, are treated exactly like records with the
field absent — they contribute nothing to any sum or inside-count (for
any geometry, including one wholly inside the query shape), the zero
bunker record behaving as if it were not in the dataset at all and the
zero population record contributing only the unconditional
`areasProcessed` bump. -/
theorem C10_zero_fields_falsy (dist : ℚ × ℚ → ℚ × ℚ → ℚ) (conv : ℚ → ℚ → Option (ℚ × ℚ))
    (shape : DrawnShape) :
    (∀ (pre post : List PopArea) (g : Option (List (List (ℚ × ℚ)))) (bs : List Bunker),
      performAnalysis dist conv shape (pre ++ ⟨g, some 0⟩ :: post) bs
        = performAnalysis dist conv shape (pre ++ ⟨g, none⟩ :: post) bs ∧
      performAnalysis dist conv shape (pre ++ ⟨g, some 0⟩ :: post) bs
        = bumpProcessed (performAnalysis dist conv shape (pre ++ post) bs)) ∧
    (∀ (ps : List PopArea) (bpre bpost : List Bunker) (bg : Option (ℚ × ℚ)),
      performAnalysis dist conv shape ps (bpre ++ ⟨bg, some 0⟩ :: bpost)
        = performAnalysis dist conv shape ps (bpre ++ ⟨bg, none⟩ :: bpost) ∧
      performAnalysis dist conv shape ps (bpre ++ ⟨bg, some 0⟩ :: bpost)
        = performAnalysis dist conv shape ps (bpre ++ bpost)) := by
  have h0 : truthy (some 0) = false := by simp [truthy]
  constructor
  · intro pre post g bs
    refine ⟨?_, performAnalysis_insert_processedOnly dist conv shape pre post _ bs
      (popContrib_not_truthy dist conv shape g _ h0)⟩
    rw [performAnalysis_insert_processedOnly dist conv shape pre post _ bs
        (popContrib_not_truthy dist conv shape g _ h0),
      performAnalysis_insert_processedOnly dist conv shape pre post _ bs
        (popContrib_not_truthy dist conv shape g none rfl)]
  · intro ps bpre bpost bg
    refine ⟨?_, performAnalysis_insert_bunkerZero dist conv shape ps bpre bpost _
      (bunkerContrib_not_truthy dist conv shape bg _ h0)⟩
    rw [performAnalysis_insert_bunkerZero dist conv shape ps bpre bpost _
        (bunkerContrib_not_truthy dist conv shape bg _ h0),
      performAnalysis_insert_bunkerZero dist conv shape ps bpre bpost _
        (bunkerContrib_not_truthy dist conv shape bg none rfl)]

/-- A left fold by a right-commutative step function is invariant under
permutation of the folded list. -/
theorem foldl_eq_of_rightComm {α β : Type} {f : β → α → β}
    (hcomm : ∀ (acc : β) (a b : α), f (f acc a) b = f (f acc b) a)
    {l₁ l₂ : List α} (p : l₁.Perm l₂) :
    ∀ acc : β, l₁.foldl f acc = l₂.foldl f acc := by
  induction p with
  | nil => intro acc; rfl
  | cons x p ih => intro acc; simp only [List.foldl_cons]; exact ih _
  | swap x y l => intro acc; simp only [List.foldl_cons]; rw [hcomm]
  | trans p₁ p₂ ih₁ ih₂ => intro acc; rw [ih₁ acc, ih₂ acc]

theorem popStep_rightComm (dist : ℚ × ℚ → ℚ × ℚ → ℚ) (conv : ℚ → ℚ → Option (ℚ × ℚ))
    (shape : DrawnShape) (acc : PopAcc) (a b : PopArea) :
    popStep dist conv shape (popStep dist conv shape acc a) b
      = popStep dist conv shape (popStep dist conv shape acc b) a := by
  rw [popStep_eq_add, popStep_eq_add, popStep_eq_add, popStep_eq_add,
    popAcc_add_assoc, popAcc_add_assoc, popAcc_add_comm (popContrib dist conv shape a)]

theorem bunkerStep_rightComm (dist : ℚ × ℚ → ℚ × ℚ → ℚ) (conv : ℚ → ℚ → Option (ℚ × ℚ))
    (shape : DrawnShape) (acc : BunkerAcc) (a b : Bunker) :
    bunkerStep dist conv shape (bunkerStep dist conv shape acc a) b
      = bunkerStep dist conv shape (bunkerStep dist conv shape acc b) a := by
  rw [bunkerStep_eq_add, bunkerStep_eq_add, bunkerStep_eq_add, bunkerStep_eq_add,
    bunkerAcc_add_assoc, bunkerAcc_add_assoc, bunkerAcc_add_comm (bunkerContrib dist conv shape a)]

/-- C9: aggregation is order-independent: permuting the population
dataset and the bunker dataset leaves the entire analysis result (both
sums, every counter, and the derived coverage) unchanged; and both
aggregation passes start from zero: the analysis of empty datasets is the
all-zero result. -/
theorem C9_order_independent (dist : ℚ × ℚ → ℚ × ℚ → ℚ) (conv : ℚ → ℚ → Option (ℚ × ℚ))
    (shape : DrawnShape) (p₁ p₂ : List PopArea) (b₁ b₂ : List Bunker)
    (hp : p₁.Perm p₂) (hb : b₁.Perm b₂) :
    performAnalysis dist conv shape p₁ b₁ = performAnalysis dist conv shape p₂ b₂ ∧
    performAnalysis dist conv shape [] [] = ⟨0, 0, 0, 0, 0, 0, 0⟩ := by
  constructor
  · unfold performAnalysis
    rw [foldl_eq_of_rightComm (popStep_rightComm dist conv shape) hp,
      foldl_eq_of_rightComm (bunkerStep_rightComm dist conv shape) hb]
  · rfl

/-- C9 witness: swapping two population areas and two bunkers yields the
same result record. -/
theorem C9_order_independent_witness :
    performAnalysis distZero convNone shapeBox
        [⟨some [triRing], some 5⟩, ⟨none, some 2⟩] [⟨some (1, 2), some 4⟩, ⟨none, none⟩]
      = performAnalysis distZero convNone shapeBox
        [⟨none, some 2⟩, ⟨some [triRing], some 5⟩] [⟨none, none⟩, ⟨some (1, 2), some 4⟩] ∧
    performAnalysis distZero convNone shapeBox [] [] = ⟨0, 0, 0, 0, 0, 0, 0⟩ :=
  C9_order_independent distZero convNone shapeBox _ _ _ _
    (List.Perm.swap _ _ _) (List.Perm.swap _ _ _)

/-- Evaluation of the bunker pass on a single convertible record under a
circle shape: counted exactly when the converted point is within the
radius. -/
theorem bunkersInside_single_circle (dist : ℚ × ℚ → ℚ × ℚ → ℚ)
    (conv : ℚ → ℚ → Option (ℚ × ℚ)) (e n cap : ℚ) (w : ℚ × ℚ)
    (center : ℚ × ℚ) (radius : ℚ) (cb : Bounds)
    (hcap : cap ≠ 0) (hconv : conv e n = some w) :
    (performAnalysis dist conv (.circle center radius cb) []
        [⟨some (e, n), some cap⟩]).bunkersInside
      = if dist (w.2, w.1) center ≤ radius then 1 else 0 := by
  by_cases h : dist (w.2, w.1) center ≤ radius <;>
    simp [performAnalysis, bunkerStep, truthy, hconv, hcap, h, BunkerAcc.zero]

/-- Evaluation of the bunker pass on a single convertible record under a
rectangle/polygon shape: counted exactly when the converted point lies in
the region's bounding box. -/
theorem bunkersInside_single_region (dist : ℚ × ℚ → ℚ × ℚ → ℚ)
    (conv : ℚ → ℚ → Option (ℚ × ℚ)) (e n cap : ℚ) (w : ℚ × ℚ) (rb : Bounds)
    (hcap : cap ≠ 0) (hconv : conv e n = some w) :
    (performAnalysis dist conv (.region rb) [] [⟨some (e, n), some cap⟩]).bunkersInside
      = if rb.containsPoint (w.2, w.1) = true then 1 else 0 := by
  by_cases h : rb.containsPoint (w.2, w.1) = true <;>
    simp [performAnalysis, bunkerStep, truthy, hconv, hcap, h, BunkerAcc.zero]

/-- C7: a shelter with valid location and capacity whose conversion
succeeds is counted inside a circle shape exactly when its converted
point's distance to the center is at most the radius, and inside a
rectangle/polygon shape exactly when the point lies in the region's
bounding box (no point-in-polygon test). -/
theorem C7_bunker_containment (dist : ℚ × ℚ → ℚ × ℚ → ℚ)
    (conv : ℚ → ℚ → Option (ℚ × ℚ)) (e n cap : ℚ) (w : ℚ × ℚ)
    (center : ℚ × ℚ) (radius : ℚ) (cb rb : Bounds)
    (hcap : cap ≠ 0) (hconv : conv e n = some w) :
    ((performAnalysis dist conv (.circle center radius cb) []
        [⟨some (e, n), some cap⟩]).bunkersInside = 1
      ↔ dist (w.2, w.1) center ≤ radius) ∧
    ((performAnalysis dist conv (.region rb) []
        [⟨some (e, n), some cap⟩]).bunkersInside = 1
      ↔ rb.containsPoint (w.2, w.1) = true) := by
  constructor
  · rw [bunkersInside_single_circle dist conv e n cap w center radius cb hcap hconv]
    split <;> simp_all
  · rw [bunkersInside_single_region dist conv e n cap w rb hcap hconv]
    split <;> simp_all

/-- C7 witness: a bunker at UTM-style coordinates converting to
`[lng, lat] = [5, 65]` is counted inside a circle centered at its own
converted point `(65, 5)` and inside a region box spanning it, in both
cases with `bunkersInside = 1`. -/
theorem C7_bunker_containment_witness :
    (performAnalysis distZero convScale (.circle (65, 5) 1 ⟨60, 70, 0, 10⟩) []
        [⟨some (500000, 6500000), some 40⟩]).bunkersInside = 1 ∧
    (performAnalysis distZero convScale (.region ⟨60, 70, 0, 10⟩) []
        [⟨some (500000, 6500000), some 40⟩]).bunkersInside = 1 := by
  have h := C7_bunker_containment distZero convScale 500000 6500000 40 (5, 65) (65, 5) 1
    ⟨60, 70, 0, 10⟩ ⟨60, 70, 0, 10⟩ (by norm_num) (by norm_num [convScale])
  exact ⟨h.1.mpr (by norm_num [distZero]),
    h.2.mpr (by norm_num [Bounds.containsPoint])⟩

/-- C8: a shelter record's raw coordinate is always sent through the full
UTM conversion, even when both components lie within geographic range
(`e ≤ 180`, `n ≤ 90`); there is no magnitude heuristic in the bunker
pass: if the conversion fails the bunker is dropped entirely (the result
is as if the record were absent, for every query shape), and if it
returns `w` the point tested is `(w.2, w.1)` — while the population-pass
normalizer would have classified the very same raw pair as geographic and
kept it as `(n, e)` unchanged. -/
theorem C8_bunker_always_converted (dist : ℚ × ℚ → ℚ × ℚ → ℚ)
    (conv : ℚ → ℚ → Option (ℚ × ℚ)) (e n cap : ℚ)
    (hx : e ≤ 180) (hy : n ≤ 90) (hcap : cap ≠ 0) :
    (∀ shape : DrawnShape, conv e n = none →
      performAnalysis dist conv shape [] [⟨some (e, n), some cap⟩]
        = performAnalysis dist conv shape [] []) ∧
    (∀ w, conv e n = some w → ∀ (center : ℚ × ℚ) (radius : ℚ) (cb : Bounds),
      ((performAnalysis dist conv (.circle center radius cb) []
          [⟨some (e, n), some cap⟩]).bunkersInside = 1
        ↔ dist (w.2, w.1) center ≤ radius)) ∧
    normalizeCoord conv (e, n) = some (n, e) := by
  refine ⟨?_, ?_, ?_⟩
  · intro shape hnone
    exact performAnalysis_insert_bunkerZero dist conv shape [] [] [] _
      (bunkerContrib_conv_none dist conv shape e n (some cap) hnone)
  · intro w hw center radius cb
    rw [bunkersInside_single_circle dist conv e n cap w center radius cb hcap hw]
    split <;> simp_all
  · rw [normalizeCoord, if_neg]
    push_neg
    exact ⟨hx, hy⟩

/-- C8 witness: the raw pair (10, 20) is in geographic range, yet the
bunker pass uses its converted point (1/5000, 1/10000), which is inside a
unit circle at the origin, while the population-pass normalizer would
keep (20, 10). -/
theorem C8_bunker_always_converted_witness :
    (performAnalysis distZero convScale (.circle (0, 0) 1 ⟨0, 1, 0, 1⟩) []
        [⟨some (10, 20), some 40⟩]).bunkersInside = 1 ∧
    normalizeCoord convScale (10, 20) = some (20, 10) := by
  have h := C8_bunker_always_converted distZero convScale 10 20 40 (by norm_num) (by norm_num)
    (by norm_num)
  exact ⟨(h.2.1 (1/10000, 1/5000) (by norm_num [convScale]) (0, 0) 1 ⟨0, 1, 0, 1⟩).mpr
      (by norm_num [distZero]),
    h.2.2⟩

/-- Evaluation of the population pass on a single well-formed record
under a circle shape: the record is counted as intersected exactly when
the Boolean classification (bounding-box pre-filter and vertex-in-radius
scan) succeeds. -/
theorem areasIntersected_single_circle (dist : ℚ × ℚ → ℚ × ℚ → ℚ)
    (conv : ℚ → ℚ → Option (ℚ × ℚ)) (center : ℚ × ℚ) (radius : ℚ) (cbounds : Bounds)
    (ring : List (ℚ × ℚ)) (pt : ℚ) (hpt : pt ≠ 0)
    (hlen : 3 ≤ (ring.filterMap (normalizeCoord conv)).length) :
    (performAnalysis dist conv (.circle center radius cbounds)
        [⟨some [ring], some pt⟩] []).areasIntersected
      = if ((boundsOfRing (ring.filterMap (normalizeCoord conv))).intersects cbounds
            && (ring.filterMap (normalizeCoord conv)).any
                (fun c => decide (dist c center ≤ radius))) = true
        then 1 else 0 := by
  have hlt : ¬((ring.filterMap (normalizeCoord conv)).length < 3) := not_lt.mpr hlen
  simp [performAnalysis, popStep, truthy, hpt, hlt, PopAcc.zero, List.headD]
  split <;> rfl

/-- C4: under a circle query shape, a population ring with at least 3
valid vertices is classified as intersecting exactly when its bounding
box overlaps the circle's bounding box AND some ring vertex lies within
the radius of the circle's center; consequently a ring none of whose
vertices is within the radius (for example one wholly surrounding the
circle) is classified as non-intersecting. -/
theorem C4_circle_ring_classification (dist : ℚ × ℚ → ℚ × ℚ → ℚ)
    (conv : ℚ → ℚ → Option (ℚ × ℚ)) (center : ℚ × ℚ) (radius : ℚ) (cbounds : Bounds)
    (ring : List (ℚ × ℚ)) (pt : ℚ) (hpt : pt ≠ 0)
    (hlen : 3 ≤ (ring.filterMap (normalizeCoord conv)).length) :
    ((performAnalysis dist conv (.circle center radius cbounds)
        [⟨some [ring], some pt⟩] []).areasIntersected = 1
      ↔ ((boundsOfRing (ring.filterMap (normalizeCoord conv))).intersects cbounds = true ∧
          ∃ c ∈ ring.filterMap (normalizeCoord conv), dist c center ≤ radius)) ∧
    ((∀ c ∈ ring.filterMap (normalizeCoord conv), ¬(dist c center ≤ radius)) →
      (performAnalysis dist conv (.circle center radius cbounds)
        [⟨some [ring], some pt⟩] []).areasIntersected = 0) := by
  rw [areasIntersected_single_circle dist conv center radius cbounds ring pt hpt hlen]
  constructor
  · constructor
    · intro h1
      have hcond : ((boundsOfRing (ring.filterMap (normalizeCoord conv))).intersects cbounds
          && (ring.filterMap (normalizeCoord conv)).any
              (fun c => decide (dist c center ≤ radius))) = true := by
        by_contra hc
        rw [if_neg hc] at h1
        exact absurd h1 (by omega)
      rw [Bool.and_eq_true] at hcond
      obtain ⟨c, hc, hd⟩ := List.any_eq_true.mp hcond.2
      exact ⟨hcond.1, c, hc, of_decide_eq_true hd⟩
    · rintro ⟨hA, c, hc, hd⟩
      have hBany : (ring.filterMap (normalizeCoord conv)).any
          (fun c => decide (dist c center ≤ radius)) = true :=
        List.any_eq_true.mpr ⟨c, hc, decide_eq_true hd⟩
      simp [hA, hBany]
  · intro hall
    have hB : (ring.filterMap (normalizeCoord conv)).any
        (fun c => decide (dist c center ≤ radius)) = false := by
      rw [Bool.eq_false_iff]
      intro hBt
      obtain ⟨c, hc, hd⟩ := List.any_eq_true.mp hBt
      exact hall c hc (of_decide_eq_true hd)
    simp [hB]

/-- C4 witness: the triangle ring (all three raw pairs geographic)
against a circle at the origin with radius 10 is classified as
intersecting: its bounding box overlaps the circle's box and the vertex
(1, 1) is within the radius. -/
theorem C4_circle_ring_classification_witness :
    (performAnalysis distZero convNone (.circle (0, 0) 10 ⟨0, 5, 0, 5⟩)
        [⟨some [triRing], some 5⟩] []).areasIntersected = 1 := by
  have h := C4_circle_ring_classification distZero convNone (0, 0) 10 ⟨0, 5, 0, 5⟩ triRing 5
    (by norm_num)
    (by norm_num [triRing, normalizeCoord, convNone, List.filterMap_cons, List.filterMap_nil])
  refine h.1.mpr ⟨?_, (1, 1), ?_, ?_⟩
  · norm_num [triRing, normalizeCoord, convNone, List.filterMap_cons, List.filterMap_nil,
      boundsOfRing, Bounds.intersects, min_def, max_def]
  · norm_num [triRing, normalizeCoord, convNone, List.filterMap_cons, List.filterMap_nil]
  · norm_num [distZero]
